import Mathlib

/-!
# Network latency probes of `AMyProjectCharacter`

A shallow embedding of the latency-measurement code in
`Source/MyProject/MyProjectCharacter.cpp`: the tick driver (`Tick`), the
replication round-trip test (`Execute`, `ServerInteract_S2C_VarRep`, `OnRepVar1`)
and the RPC ping-pong probe (`pingpongTestServer`, `pingpongTestClient`).

Every handler is a pure function from the actor state (and the clock readings it
takes) to the new state and the list of effects it performs, in source order: the
remote calls it issues and the lines it logs.  Engine glue (camera, meshes, input
binding, `Super::Tick`) carries no state the probes read and is left out.
-/

namespace MyProject

/-! ## Machine integers -/

/-- How the result of an `int` operation is stored.  `int32` is the 32-bit two's
complement wrap the compiled code performs; `ideal` is the unbounded integer. -/
inductive IntSem
  | int32
  | ideal
  deriving DecidableEq, Repr

/-- Reduction of an integer to the 32-bit two's complement range. -/
def wrapInt32 (x : Int) : Int := (x + 2 ^ 31) % 2 ^ 32 - 2 ^ 31

/-- Stored value of an arithmetic result under the chosen integer semantics. -/
def IntSem.norm : IntSem → Int → Int
  | IntSem.int32, x => wrapInt32 x
  | IntSem.ideal, x => x

/-! ## Clock -/

/-- The engine's `FDateTime`: a count of 100-nanosecond ticks since the epoch. -/
structure FDateTime where
  Ticks : Nat
  deriving DecidableEq, Repr

/-- The engine constant `ETimespan::TicksPerMillisecond`. -/
def TicksPerMillisecond : Nat := 10000

/-- The engine constant `ETimespan::TicksPerSecond`. -/
def TicksPerSecond : Nat := 10000000

/-- The engine method `FDateTime::GetSecond`: the second of the minute, `0 .. 59`. -/
def FDateTime.GetSecond (t : FDateTime) : Int := ((t.Ticks / TicksPerSecond) % 60 : Nat)

/-- The engine method `FDateTime::GetMillisecond`: the millisecond of the second, `0 .. 999`. -/
def FDateTime.GetMillisecond (t : FDateTime) : Int := ((t.Ticks / TicksPerMillisecond) % 1000 : Nat)

/-- The expression `FDateTime::UtcNow().GetSecond() * 1000 + FDateTime::UtcNow().GetMillisecond()`;
`u1` and `u2` are the results of its two `UtcNow()` calls.  The value lies in
`0 .. 59999`, so no `int` overflow can occur in it. -/
def clockReading (u1 u2 : FDateTime) : Int := u1.GetSecond * 1000 + u2.GetMillisecond

/-- The clock expression when both `UtcNow()` calls return the same instant. -/
def clockAt (t : FDateTime) : Int := clockReading t t

/-! ## Data model -/

/-- Modelled from the spec: the test-mode enumeration behind `gTestType`, declared in the
header, which is not part of the sources: "enumeration: `None`, `ReplicationRoundTrip`". -/
inductive TestType
  | TT_NONE
  | TT_REPLICATION_ROUNDTRIP
  deriving DecidableEq, Repr

/-- The struct `FServerInitData`, the payload of the initialisation call. -/
structure FServerInitData where
  testType : TestType
  deriving DecidableEq, Repr

/-- The state the probes read and write in one process: the actor's replicated
counters, the tick budget, the two start timestamps, the process-wide `gTestType`
and the answer of `HasAuthority()` for this copy of the actor. -/
structure AMyProjectCharacter where
  authority : Bool
  gTestType : TestType
  Var1 : Int
  Var2 : Int
  varModCount : Int
  start_time : Int
  rpc_start_time : Int
  deriving DecidableEq, Repr

/-- The engine query `AActor::HasAuthority`. -/
def HasAuthority (s : AMyProjectCharacter) : Bool := s.authority

/-- The remote procedure calls the file issues. -/
inductive Rpc
  | pingpongTestClient (ball : Int)
  | pingpongTestServer (ball : Int)
  | ServerInteract_S2C_VarRep (s : String)
  | ServerInitializing_TT_REPLICATION_ROUNDTRIP_Env (data : FServerInitData)
  | NotifyClientRoundTripDone (var1_server var2_server : Int)
  deriving DecidableEq, Repr

/-- The lines written with `UE_LOG`, one constructor per call site, carrying the
formatted arguments. -/
inductive LogLine
  | Interact_S2C_VarRep
  | RyanIsComing
  | NotifyVarsFromServer (var1_server var2_server : Int)
  | NotifyVarsClient (var1 var2 : Int)
  | NotifyStartEnd (start_time end_time : Int)
  | NotifyTotalTime (total : Int)
  | ServerInitializing (testType : TestType)
  | ServerInteract_S2C_VarRep
  | OnRepVar1 (var1 : Int)
  | ReplicationDone
  | ReplicationTotalTime (total : Int)
  | pingpongServerBall (ball : Int)
  | pingpongClientReached (ball : Int)
  | pingpongClientTimeLapse (lapse : Int)
  | pingpongClientBall (ball : Int)
  deriving DecidableEq, Repr

/-- An observable effect of a handler. -/
inductive Effect
  | call (r : Rpc)
  | log (l : LogLine)
  deriving DecidableEq, Repr

/-- Whether an effect is a remote call. -/
def Effect.isCall : Effect → Bool
  | Effect.call _ => true
  | Effect.log _ => false

/-- Whether an effect is the ping-pong completion report of the client handler
(the "rpc time lapse" line of the `ball == 500` branch). -/
def Effect.isCompletion : Effect → Bool
  | Effect.log (LogLine.pingpongClientTimeLapse _) => true
  | _ => false

/-- Whether an effect is the replication-latency report of `OnRepVar1`. -/
def Effect.isReplicationReport : Effect → Bool
  | Effect.log (LogLine.ReplicationTotalTime _) => true
  | _ => false

/-! ## Operations -/

/-- The constructor: `Var1 = 0; Var2 = 0;`.  The fields it does not assign are
taken from `s`. -/
def construct (s : AMyProjectCharacter) : AMyProjectCharacter :=
  { s with Var1 := 0, Var2 := 0 }

/-- Embedding of `AMyProjectCharacter::Tick`. -/
def Tick (m : IntSem) (s : AMyProjectCharacter) : AMyProjectCharacter × List Effect :=
  if HasAuthority s then
    if s.varModCount > 0 then
      -- `varModCount++ % 1 == 0`: test the old value, store the incremented one
      let old := s.varModCount
      let s1 := { s with varModCount := m.norm (s.varModCount + 1) }
      let s2 :=
        if old.tmod 1 = 0 then
          { s1 with Var1 := m.norm (s1.Var1 + 1), Var2 := m.norm (s1.Var2 + 1) }
        else s1
      if s2.varModCount ≥ 30 * 10 then
        let ball : Int := 0
        ({ s2 with varModCount := 0 }, [Effect.call (Rpc.pingpongTestClient ball)])
      else (s2, [])
    else (s, [])
  else (s, [])

/-- Embedding of `AMyProjectCharacter::Interact_S2C_VarRep`. -/
def Interact_S2C_VarRep (s : AMyProjectCharacter) : AMyProjectCharacter × List Effect :=
  if !HasAuthority s then
    (s, [Effect.log LogLine.Interact_S2C_VarRep,
         Effect.call (Rpc.ServerInteract_S2C_VarRep "jsdkfjsklfja;klsdf")])
  else (s, [])

/-- Embedding of `AMyProjectCharacter::Execute`; `u1`, `u2` are the two `UtcNow()` readings. -/
def Execute (u1 u2 : FDateTime) (s : AMyProjectCharacter) : AMyProjectCharacter × List Effect :=
  if s.gTestType = TestType.TT_REPLICATION_ROUNDTRIP then
    let s1 := { s with start_time := clockReading u1 u2 }
    Interact_S2C_VarRep s1
  else (s, [])

/-- Embedding of `AMyProjectCharacter::NotifyClientRoundTripDone_Implementation`. -/
def NotifyClientRoundTripDone_Implementation (m : IntSem) (u1 u2 : FDateTime)
    (s : AMyProjectCharacter) (var1_server var2_server : Int) :
    AMyProjectCharacter × List Effect :=
  if HasAuthority s then (s, [])
  else
    let end_time := clockReading u1 u2
    (s, [Effect.log LogLine.RyanIsComing,
         Effect.log (LogLine.NotifyVarsFromServer var1_server var2_server),
         Effect.log (LogLine.NotifyVarsClient s.Var1 s.Var2),
         Effect.log (LogLine.NotifyStartEnd s.start_time end_time),
         Effect.log (LogLine.NotifyTotalTime (m.norm (end_time - s.start_time)))])

/-- Embedding of `AMyProjectCharacter::ServerInitializing_TT_REPLICATION_ROUNDTRIP_Env_Validate`. -/
def ServerInitializing_TT_REPLICATION_ROUNDTRIP_Env_Validate (_data : FServerInitData) : Bool :=
  true

/-- Embedding of `AMyProjectCharacter::ServerInitializing_TT_REPLICATION_ROUNDTRIP_Env_Implementation`. -/
def ServerInitializing_TT_REPLICATION_ROUNDTRIP_Env_Implementation
    (s : AMyProjectCharacter) (data : FServerInitData) : AMyProjectCharacter × List Effect :=
  ({ s with gTestType := data.testType }, [Effect.log (LogLine.ServerInitializing data.testType)])

/-- Embedding of `AMyProjectCharacter::Initializing_TT_REPLICATION_ROUNDTRIP_Env`. -/
def Initializing_TT_REPLICATION_ROUNDTRIP_Env (s : AMyProjectCharacter) :
    AMyProjectCharacter × List Effect :=
  if !HasAuthority s then
    let s1 := { s with gTestType := TestType.TT_REPLICATION_ROUNDTRIP }
    let data : FServerInitData := { testType := s1.gTestType }
    (s1, [Effect.call (Rpc.ServerInitializing_TT_REPLICATION_ROUNDTRIP_Env data)])
  else (s, [])

/-- Embedding of `AMyProjectCharacter::ServerInteract_S2C_VarRep_Implementation`, the enable handler. -/
def ServerInteract_S2C_VarRep_Implementation (s : AMyProjectCharacter) (_str : String) :
    AMyProjectCharacter × List Effect :=
  if HasAuthority s then
    ({ s with varModCount := 1 }, [Effect.log LogLine.ServerInteract_S2C_VarRep])
  else (s, [])

/-- Embedding of `AMyProjectCharacter::ServerInteract_S2C_VarRep_Validate`. -/
def ServerInteract_S2C_VarRep_Validate (_str : String) : Bool := true

/-- Embedding of `AMyProjectCharacter::OnRepVar1`, run on a copy whose `Var1` holds the mirrored
value; `u1`, `u2` are the two `UtcNow()` readings of its `end_time`. -/
def OnRepVar1 (m : IntSem) (u1 u2 : FDateTime) (s : AMyProjectCharacter) :
    AMyProjectCharacter × List Effect :=
  if s.Var1 = 299 then
    let end_time := clockReading u1 u2
    (s, [Effect.log (LogLine.OnRepVar1 s.Var1),
         Effect.log LogLine.ReplicationDone,
         Effect.log (LogLine.ReplicationTotalTime (m.norm (end_time - s.start_time)))])
  else (s, [Effect.log (LogLine.OnRepVar1 s.Var1)])

/-- Embedding of `AMyProjectCharacter::OnRepVar2`: its body is commented out. -/
def OnRepVar2 (s : AMyProjectCharacter) : AMyProjectCharacter × List Effect := (s, [])

/-- Embedding of `AMyProjectCharacter::pingpongTestServer_Implementation`. -/
def pingpongTestServer_Implementation (m : IntSem) (s : AMyProjectCharacter) (ball : Int) :
    AMyProjectCharacter × List Effect :=
  if !HasAuthority s then (s, [])
  else
    let ball := m.norm (ball + 1)
    (s, [Effect.call (Rpc.pingpongTestClient ball),
         Effect.log (LogLine.pingpongServerBall ball)])

/-- Embedding of `AMyProjectCharacter::pingpongTestClient_Implementation`.  The `ball == 0` and
`ball == 500` branches exclude each other, so one invocation evaluates the clock
expression at most once; `u1`, `u2` are its two `UtcNow()` readings. -/
def pingpongTestClient_Implementation (m : IntSem) (u1 u2 : FDateTime)
    (s : AMyProjectCharacter) (ball : Int) : AMyProjectCharacter × List Effect :=
  if HasAuthority s then (s, [])
  else
    let s1 := if ball = 0 then { s with rpc_start_time := clockReading u1 u2 } else s
    if ball = 500 then
      let rpc_end_time := clockReading u1 u2
      (s1, [Effect.log (LogLine.pingpongClientReached ball),
            Effect.log (LogLine.pingpongClientTimeLapse (m.norm (rpc_end_time - s1.rpc_start_time)))])
    else
      let ball := m.norm (ball + 1)
      (s1, [Effect.call (Rpc.pingpongTestServer ball),
            Effect.log (LogLine.pingpongClientBall ball)])

/-! ## The two sides and the remote-call channel -/

/-- The two execution contexts of an actor: the authoritative copy and the remote copy. -/
inductive Side
  | server
  | client
  deriving DecidableEq, Repr

/-- Modelled from the spec: the side a remote call runs on, fixed in the header (which is
not part of the sources) by the declaration of each call: "a directed, asynchronous
invocation of a named handler on the opposite-role context"; `ServerHandler` runs on the
authoritative side, `ClientHandler` on the non-authoritative one. -/
def Rpc.target : Rpc → Side
  | Rpc.pingpongTestClient _ => Side.client
  | Rpc.pingpongTestServer _ => Side.server
  | Rpc.ServerInteract_S2C_VarRep _ => Side.server
  | Rpc.ServerInitializing_TT_REPLICATION_ROUNDTRIP_Env _ => Side.server
  | Rpc.NotifyClientRoundTripDone _ _ => Side.client

/-- The handler a delivered call runs on the receiving copy `s`.  Calls with a
`_Validate` function are run only when it accepts them. -/
def dispatch (m : IntSem) (u1 u2 : FDateTime) (s : AMyProjectCharacter) :
    Rpc → AMyProjectCharacter × List Effect
  | Rpc.pingpongTestClient ball => pingpongTestClient_Implementation m u1 u2 s ball
  | Rpc.pingpongTestServer ball => pingpongTestServer_Implementation m s ball
  | Rpc.ServerInteract_S2C_VarRep str =>
      if ServerInteract_S2C_VarRep_Validate str then
        ServerInteract_S2C_VarRep_Implementation s str
      else (s, [])
  | Rpc.ServerInitializing_TT_REPLICATION_ROUNDTRIP_Env data =>
      if ServerInitializing_TT_REPLICATION_ROUNDTRIP_Env_Validate data then
        ServerInitializing_TT_REPLICATION_ROUNDTRIP_Env_Implementation s data
      else (s, [])
  | Rpc.NotifyClientRoundTripDone v1 v2 => NotifyClientRoundTripDone_Implementation m u1 u2 s v1 v2

/-- One delivery: the side that ran a handler, the call it received and what the
handler did. -/
structure Delivery where
  side : Side
  rpc : Rpc
  effects : List Effect
  deriving DecidableEq, Repr

/-- The two copies of the actor, the calls in flight towards each side in issue
order, and the deliveries made so far, oldest first. -/
structure Net where
  server : AMyProjectCharacter
  client : AMyProjectCharacter
  toServer : List Rpc
  toClient : List Rpc
  history : List Delivery
  deriving DecidableEq, Repr

/-- The remote calls among a handler's effects, in issue order. -/
def issuedCalls : List Effect → List Rpc
  | [] => []
  | Effect.call r :: es => r :: issuedCalls es
  | Effect.log _ :: es => issuedCalls es

/-- All calls currently in flight. -/
def Net.inFlight (n : Net) : List Rpc := n.toClient ++ n.toServer

/-- Deliver the oldest call in flight towards `side`: run its handler on that side's
copy and append the calls the handler issues to the queues of their targets.  `none`
when no call is in flight towards `side`.  `u` holds the clock readings the handler
takes. -/
def deliver (m : IntSem) (u : FDateTime × FDateTime) (side : Side) (n : Net) : Option Net :=
  match side with
  | Side.client =>
    match n.toClient with
    | [] => none
    | r :: rest =>
      let out := dispatch m u.1 u.2 n.client r
      let calls := issuedCalls out.2
      some { n with
        client := out.1
        toClient := rest ++ calls.filter (fun c => c.target = Side.client)
        toServer := n.toServer ++ calls.filter (fun c => c.target = Side.server)
        history := n.history ++ [⟨Side.client, r, out.2⟩] }
  | Side.server =>
    match n.toServer with
    | [] => none
    | r :: rest =>
      let out := dispatch m u.1 u.2 n.server r
      let calls := issuedCalls out.2
      some { n with
        server := out.1
        toClient := n.toClient ++ calls.filter (fun c => c.target = Side.client)
        toServer := rest ++ calls.filter (fun c => c.target = Side.server)
        history := n.history ++ [⟨Side.server, r, out.2⟩] }

/-- The next delivery, if any call is in flight; the `i`-th delivery of a run takes
the clock readings `clock i`.  When calls are in flight in both directions the one
towards the client goes first; a ping-pong probe never has more than one call in
flight, so the choice does not arise there. -/
def next (m : IntSem) (clock : Nat → FDateTime × FDateTime) (n : Net) : Option Net :=
  match deliver m (clock n.history.length) Side.client n with
  | some n1 => some n1
  | none => deliver m (clock n.history.length) Side.server n

/-- The net after `k` delivery steps; a step with nothing in flight changes nothing. -/
def run (m : IntSem) (clock : Nat → FDateTime × FDateTime) : Nat → Net → Net
  | 0, n => n
  | k + 1, n => (next m clock (run m clock k n)).getD (run m clock k n)

/-- Number of remote calls issued by the handlers of the deliveries in `h`. -/
def callsIssued (h : List Delivery) : Nat :=
  (h.map (fun d => (d.effects.filter Effect.isCall).length)).sum

/-- Number of ping-pong completion reports in the deliveries in `h`. -/
def completions (h : List Delivery) : Nat :=
  (h.map (fun d => (d.effects.filter Effect.isCompletion).length)).sum

/-- The ball values the client handler was invoked with, oldest first. -/
def clientObserved : List Delivery → List Int
  | [] => []
  | ⟨Side.client, Rpc.pingpongTestClient ball, _⟩ :: h => ball :: clientObserved h
  | _ :: h => clientObserved h

/-- A probe about to start: `pingpongTestClient(ball)` is in flight towards the client
and nothing else is. -/
def probeStart (sv cl : AMyProjectCharacter) (ball : Int) : Net :=
  { server := sv, client := cl, toServer := [], toClient := [Rpc.pingpongTestClient ball],
    history := [] }

/-- The state right after the constructor on the given side, with the test mode unset,
the driver idle and the timestamps zero. -/
def spawn (authority : Bool) : AMyProjectCharacter :=
  construct { authority := authority, gTestType := TestType.TT_NONE, Var1 := 0, Var2 := 0,
              varModCount := 0, start_time := 0, rpc_start_time := 0 }

/-- The state after `n` invocations of `Tick`, with the effects of all of them. -/
def ticks (m : IntSem) : Nat → AMyProjectCharacter → AMyProjectCharacter × List Effect
  | 0, s => (s, [])
  | n + 1, s =>
    let before := ticks m n s
    let out := Tick m before.1
    (out.1, before.2 ++ out.2)

/-- The operations of the file that can run on an actor after its construction. -/
inductive Op
  | Tick
  | Execute (u1 u2 : FDateTime)
  | Interact_S2C_VarRep
  | NotifyClientRoundTripDone_Implementation (u1 u2 : FDateTime) (var1_server var2_server : Int)
  | ServerInitializing_TT_REPLICATION_ROUNDTRIP_Env_Implementation (data : FServerInitData)
  | Initializing_TT_REPLICATION_ROUNDTRIP_Env
  | ServerInteract_S2C_VarRep_Implementation (str : String)
  | OnRepVar1 (u1 u2 : FDateTime)
  | OnRepVar2
  | pingpongTestServer_Implementation (ball : Int)
  | pingpongTestClient_Implementation (u1 u2 : FDateTime) (ball : Int)
  deriving DecidableEq, Repr

/-- Run one operation on a state. -/
def Op.apply (m : IntSem) (s : AMyProjectCharacter) : Op → AMyProjectCharacter × List Effect
  | Op.Tick => MyProject.Tick m s
  | Op.Execute u1 u2 => MyProject.Execute u1 u2 s
  | Op.Interact_S2C_VarRep => MyProject.Interact_S2C_VarRep s
  | Op.NotifyClientRoundTripDone_Implementation u1 u2 v1 v2 =>
      MyProject.NotifyClientRoundTripDone_Implementation m u1 u2 s v1 v2
  | Op.ServerInitializing_TT_REPLICATION_ROUNDTRIP_Env_Implementation data =>
      MyProject.ServerInitializing_TT_REPLICATION_ROUNDTRIP_Env_Implementation s data
  | Op.Initializing_TT_REPLICATION_ROUNDTRIP_Env =>
      MyProject.Initializing_TT_REPLICATION_ROUNDTRIP_Env s
  | Op.ServerInteract_S2C_VarRep_Implementation str =>
      MyProject.ServerInteract_S2C_VarRep_Implementation s str
  | Op.OnRepVar1 u1 u2 => MyProject.OnRepVar1 m u1 u2 s
  | Op.OnRepVar2 => MyProject.OnRepVar2 s
  | Op.pingpongTestServer_Implementation ball => MyProject.pingpongTestServer_Implementation m s ball
  | Op.pingpongTestClient_Implementation u1 u2 ball =>
      MyProject.pingpongTestClient_Implementation m u1 u2 s ball

/-- The arithmetic progression `b, b + 2, b + 4, ...` of the given length. -/
def progression (b : Int) (len : Nat) : List Int :=
  (List.range len).map (fun (i : Nat) => b + 2 * (i : Int))

/-- The shape of a net in which a probe started with ball `b` is still running after
`n` deliveries: exactly one call is in flight, it carries `b + n` and travels towards
the client when `n` is even and towards the server when `n` is odd; `n` calls have been
issued, no completion has been reported, and the client has seen `b, b + 2, ...`. -/
structure Flying (b : Int) (n : Nat) (net : Net) : Prop where
  serverAuthority : net.server.authority = true
  clientAuthority : net.client.authority = false
  toClient : net.toClient = if n % 2 = 0 then [Rpc.pingpongTestClient (b + n)] else []
  toServer : net.toServer = if n % 2 = 0 then [] else [Rpc.pingpongTestServer (b + n)]
  length : net.history.length = n
  calls : callsIssued net.history = n
  noCompletion : completions net.history = 0
  observed : clientObserved net.history = progression b ((n + 1) / 2)

/-- A clock for concrete runs: the handler of delivery `i` reads the instant `i`
milliseconds after the epoch at both of its `UtcNow()` calls. -/
def steadyClock : Nat → FDateTime × FDateTime :=
  fun i => (⟨i * TicksPerMillisecond⟩, ⟨i * TicksPerMillisecond⟩)

/-- An instant one millisecond before a minute boundary (second 59, millisecond 999). -/
def lastMillisecondOfMinute : FDateTime := ⟨599990000⟩

/-- The minute boundary that follows `lastMillisecondOfMinute` (second 0, millisecond 0). -/
def firstMillisecondOfNextMinute : FDateTime := ⟨600000000⟩

/-- A remote copy on which the round-trip test mode has been selected. -/
def clientInTest : AMyProjectCharacter :=
  { spawn false with gTestType := TestType.TT_REPLICATION_ROUNDTRIP }

/-! ## Lemmas on the integer semantics and the tick driver -/

theorem norm_of_inRange (m : IntSem) (x : Int) (hlo : -2 ^ 31 ≤ x) (hhi : x < 2 ^ 31) :
    m.norm x = x := by
  cases m
  · simp only [IntSem.norm, wrapInt32]
    omega
  · rfl

theorem norm_succ_ne (m : IntSem) (x : Int) : m.norm (x + 1) ≠ x := by
  cases m
  · simp only [IntSem.norm, wrapInt32]
    omega
  · simp [IntSem.norm]

/-- One tick of an armed driver that is not yet at its last tick. -/
theorem Tick_running (m : IntSem) (s : AMyProjectCharacter) (ha : s.authority = true)
    (h0 : 0 < s.varModCount) (h1 : s.varModCount + 1 < 300) :
    Tick m s = ({ s with varModCount := s.varModCount + 1,
                         Var1 := m.norm (s.Var1 + 1), Var2 := m.norm (s.Var2 + 1) }, []) := by
  have hn : m.norm (s.varModCount + 1) = s.varModCount + 1 :=
    norm_of_inRange m _ (by omega) (by omega)
  have h2 : ¬ (300 ≤ s.varModCount + 1) := by omega
  simp [Tick, HasAuthority, ha, h0, hn, h2]

/-- The tick on which the driver reaches its budget. -/
theorem Tick_last (m : IntSem) (s : AMyProjectCharacter) (ha : s.authority = true)
    (h : s.varModCount = 299) :
    Tick m s = ({ s with varModCount := 0,
                         Var1 := m.norm (s.Var1 + 1), Var2 := m.norm (s.Var2 + 1) },
                [Effect.call (Rpc.pingpongTestClient 0)]) := by
  have hn : m.norm 300 = 300 := norm_of_inRange m _ (by norm_num) (by norm_num)
  simp [Tick, HasAuthority, ha, h, hn]

/-- A tick of an idle driver does nothing. -/
theorem Tick_idle (m : IntSem) (s : AMyProjectCharacter) (h : s.varModCount ≤ 0) :
    Tick m s = (s, []) := by
  have h2 : ¬ (0 < s.varModCount) := by omega
  simp [Tick, h2]

theorem ticks_succ (m : IntSem) (n : Nat) (s : AMyProjectCharacter) :
    ticks m (n + 1) s = ((Tick m (ticks m n s).1).1, (ticks m n s).2 ++ (Tick m (ticks m n s).1).2) :=
  rfl

/-- While fewer than 299 ticks have run since arming, the budget counter is one more
than the number of ticks, and nothing has been issued or logged. -/
theorem ticks_armed_budget (m : IntSem) (s : AMyProjectCharacter) (ha : s.authority = true)
    (h : s.varModCount = 1) (k : Nat) (hk : k ≤ 298) :
    (ticks m k s).1.authority = true ∧ (ticks m k s).1.varModCount = k + 1 ∧
      (ticks m k s).2 = [] := by
  induction k with
  | zero => simp [ticks, ha, h]
  | succ k ih =>
    obtain ⟨h1, h2, h3⟩ := ih (by omega)
    rw [ticks_succ, Tick_running m _ h1 (by omega) (by omega)]
    refine ⟨h1, ?_, ?_⟩
    · simp [h2]
    · simp [h3]

/-- While fewer than 299 ticks have run since arming, both counters have advanced by
the number of ticks, as long as they started far enough below `INT_MAX`. -/
theorem ticks_armed_counters (m : IntSem) (s : AMyProjectCharacter) (ha : s.authority = true)
    (h : s.varModCount = 1) (a b : Int) (h1 : s.Var1 = a) (h2 : s.Var2 = b)
    (ha1 : -2 ^ 31 ≤ a) (ha2 : a + 299 < 2 ^ 31) (hb1 : -2 ^ 31 ≤ b) (hb2 : b + 299 < 2 ^ 31)
    (k : Nat) (hk : k ≤ 298) :
    (ticks m k s).1.Var1 = a + k ∧ (ticks m k s).1.Var2 = b + k := by
  induction k with
  | zero => simp [ticks, h1, h2]
  | succ k ih =>
    obtain ⟨i1, i2⟩ := ih (by omega)
    obtain ⟨j1, j2, _⟩ := ticks_armed_budget m s ha h k (by omega)
    rw [ticks_succ, Tick_running m _ j1 (by omega) (by omega)]
    simp only [i1, i2]
    rw [norm_of_inRange m _ (by omega) (by omega), norm_of_inRange m _ (by omega) (by omega)]
    push_cast
    omega

/-- The 299th tick after arming: the budget is reset, the counters reach their final
value and the ping-pong kickoff is the only effect of the whole run. -/
theorem ticks_armed_299 (m : IntSem) (s : AMyProjectCharacter) (ha : s.authority = true)
    (h : s.varModCount = 1) :
    (ticks m 299 s).1.authority = true ∧ (ticks m 299 s).1.varModCount = 0 ∧
      (ticks m 299 s).2 = [Effect.call (Rpc.pingpongTestClient 0)] ∧
      (Tick m (ticks m 298 s).1).2 = [Effect.call (Rpc.pingpongTestClient 0)] ∧
      (ticks m 299 s).1.Var1 = m.norm ((ticks m 298 s).1.Var1 + 1) ∧
      (ticks m 299 s).1.Var2 = m.norm ((ticks m 298 s).1.Var2 + 1) ∧
      (Tick m (ticks m 298 s).1).1.varModCount = 0 := by
  obtain ⟨j1, j2, j3⟩ := ticks_armed_budget m s ha h 298 (by omega)
  have hl := Tick_last m (ticks m 298 s).1 j1 (by simpa using j2)
  rw [ticks_succ m 298, hl]
  simp [j1, j3]

/-- Ticks of an idle driver change nothing. -/
theorem ticks_idle (m : IntSem) (s : AMyProjectCharacter) (h : s.varModCount ≤ 0) (k : Nat) :
    ticks m k s = (s, []) := by
  induction k with
  | zero => rfl
  | succ k ih => rw [ticks_succ, ih, Tick_idle m s h]; rfl

theorem ticks_add (m : IntSem) (s : AMyProjectCharacter) (j k : Nat) :
    ticks m (j + k) s = ((ticks m k (ticks m j s).1).1, (ticks m j s).2 ++ (ticks m k (ticks m j s).1).2) := by
  induction k with
  | zero => simp [ticks]
  | succ k ih =>
    rw [← Nat.add_assoc, ticks_succ, ih, ticks_succ]
    simp

/-- The enable handler on the authoritative side. -/
theorem enable_authority (s : AMyProjectCharacter) (str : String) (ha : s.authority = true) :
    (ServerInteract_S2C_VarRep_Implementation s str).1 = { s with varModCount := 1 } := by
  simp [ServerInteract_S2C_VarRep_Implementation, HasAuthority, ha]

/-- The whole run of an armed driver: the counters advance once per tick for 299 ticks
and then stay, and the budget counter is reset by the 299th tick. -/
theorem ticks_armed_all (m : IntSem) (s : AMyProjectCharacter) (ha : s.authority = true)
    (h : s.varModCount = 1) (a b : Int) (h1 : s.Var1 = a) (h2 : s.Var2 = b)
    (ha1 : -2 ^ 31 ≤ a) (ha2 : a + 299 < 2 ^ 31) (hb1 : -2 ^ 31 ≤ b) (hb2 : b + 299 < 2 ^ 31)
    (k : Nat) :
    (ticks m k s).1.Var1 = a + min k 299 ∧ (ticks m k s).1.Var2 = b + min k 299 ∧
      (ticks m k s).1.varModCount = (if k < 299 then (k : Int) + 1 else 0) ∧
      (ticks m k s).1.authority = true := by
  have h298 := ticks_armed_counters m s ha h a b h1 h2 ha1 ha2 hb1 hb2 298 (by omega)
  obtain ⟨e1, e2, _, _, e5, e6, _⟩ := ticks_armed_299 m s ha h
  rw [h298.1, norm_of_inRange m _ (by push_cast; omega) (by push_cast; omega)] at e5
  rw [h298.2, norm_of_inRange m _ (by push_cast; omega) (by push_cast; omega)] at e6
  rcases Nat.lt_or_ge k 299 with hk | hk
  · obtain ⟨c1, c2⟩ := ticks_armed_counters m s ha h a b h1 h2 ha1 ha2 hb1 hb2 k (by omega)
    obtain ⟨j1, j2, _⟩ := ticks_armed_budget m s ha h k (by omega)
    rw [Nat.min_eq_left (by omega)]
    simp [c1, c2, j1, j2, hk]
  · obtain ⟨d, rfl⟩ : ∃ d, k = 299 + d := ⟨k - 299, by omega⟩
    rw [ticks_add, ticks_idle m _ (by omega), Nat.min_eq_right (by omega)]
    have hk2 : ¬ (299 + d < 299) := by omega
    simp only [hk2, if_false]
    refine ⟨?_, ?_, e2, e1⟩
    · rw [e5]; push_cast; omega
    · rw [e6]; push_cast; omega

/-! ## The tick driver and the replication round trip -/

/-- C2: from a state with `Var1 = Var2 = 0` on the authoritative side, after the enable
handler has armed the driver and `Tick` has run `n` times with nothing in between,
`Var1 = Var2 = n` for every `n < 300`. -/
theorem counter_progression (m : IntSem) (s : AMyProjectCharacter) (str : String)
    (ha : s.authority = true) (h1 : s.Var1 = 0) (h2 : s.Var2 = 0) (n : Nat) (hn : n < 300) :
    (ticks m n (ServerInteract_S2C_VarRep_Implementation s str).1).1.Var1 = (n : Int) ∧
      (ticks m n (ServerInteract_S2C_VarRep_Implementation s str).1).1.Var2 = (n : Int) := by
  rw [enable_authority s str ha]
  obtain ⟨c1, c2, _, _⟩ := ticks_armed_all m { s with varModCount := 1 } ha rfl 0 0 h1 h2
    (by norm_num) (by norm_num) (by norm_num) (by norm_num) n
  rw [c1, c2, Nat.min_eq_left (by omega)]
  simp

/-- Witness of C2 at the spawn state, for the last tick count the claim covers. -/
theorem counter_progression_witness :
    (spawn true).authority = true ∧ (spawn true).Var1 = 0 ∧ (spawn true).Var2 = 0 ∧ 299 < 300 ∧
      (ticks IntSem.int32 299
        (ServerInteract_S2C_VarRep_Implementation (spawn true) "go").1).1.Var1 = ((299 : Nat) : Int) ∧
      (ticks IntSem.int32 299
        (ServerInteract_S2C_VarRep_Implementation (spawn true) "go").1).1.Var2 = ((299 : Nat) : Int) :=
  ⟨rfl, rfl, rfl, by decide,
    counter_progression IntSem.int32 (spawn true) "go" rfl rfl rfl 299 (by decide)⟩

/-- C3 as stated fails: after arming from the spawn state it is the 299th `Tick`, not the
300th, that sets `varModCount` to 0 and issues the kickoff; the 300th `Tick` finds the
driver idle, changes nothing and issues nothing. -/
theorem auto_disable_at_300_fails :
    (Tick IntSem.int32 (ticks IntSem.int32 298
        (ServerInteract_S2C_VarRep_Implementation (spawn true) "go").1).1).1.varModCount = 0 ∧
      (Tick IntSem.int32 (ticks IntSem.int32 298
        (ServerInteract_S2C_VarRep_Implementation (spawn true) "go").1).1).2
        = [Effect.call (Rpc.pingpongTestClient 0)] ∧
      Tick IntSem.int32 (ticks IntSem.int32 299
        (ServerInteract_S2C_VarRep_Implementation (spawn true) "go").1).1
        = ((ticks IntSem.int32 299
            (ServerInteract_S2C_VarRep_Implementation (spawn true) "go").1).1, []) := by
  have ha : (ServerInteract_S2C_VarRep_Implementation (spawn true) "go").1.authority = true := rfl
  have hv : (ServerInteract_S2C_VarRep_Implementation (spawn true) "go").1.varModCount = 1 := rfl
  obtain ⟨_, e2, _, e4, _, _, e7⟩ := ticks_armed_299 IntSem.int32 _ ha hv
  exact ⟨e7, e4, Tick_idle _ _ (by rw [e2])⟩

/-- C3 (amended): once the authoritative enable handler has armed the driver, the
driver stays active for exactly 299 `Tick` invocations: after each of the first 298 the
budget counter is positive and nothing has been issued, the 299th `Tick` is the first
one that sets `varModCount` to 0, and that same `Tick` issues `pingpongTestClient(0)`,
the only effect of the whole run. -/
theorem auto_disable_after_299_ticks (m : IntSem) (s : AMyProjectCharacter) (str : String)
    (ha : s.authority = true) :
    (∀ k : Nat, k ≤ 298 →
      0 < (ticks m k (ServerInteract_S2C_VarRep_Implementation s str).1).1.varModCount ∧
      (ticks m k (ServerInteract_S2C_VarRep_Implementation s str).1).2 = []) ∧
    (Tick m (ticks m 298 (ServerInteract_S2C_VarRep_Implementation s str).1).1).1.varModCount = 0 ∧
    (Tick m (ticks m 298 (ServerInteract_S2C_VarRep_Implementation s str).1).1).2
      = [Effect.call (Rpc.pingpongTestClient 0)] ∧
    (ticks m 299 (ServerInteract_S2C_VarRep_Implementation s str).1).2
      = [Effect.call (Rpc.pingpongTestClient 0)] := by
  rw [enable_authority s str ha]
  obtain ⟨_, _, e3, e4, _, _, e7⟩ := ticks_armed_299 m { s with varModCount := 1 } ha rfl
  refine ⟨?_, e7, e4, e3⟩
  intro k hk
  obtain ⟨_, j2, j3⟩ := ticks_armed_budget m { s with varModCount := 1 } ha rfl k hk
  exact ⟨by rw [j2]; omega, j3⟩

/-- Witness of the amended C3 at the spawn state: the driver is still armed after 298
ticks and the 299th resets it and issues the kickoff. -/
theorem auto_disable_after_299_ticks_witness :
    (spawn true).authority = true ∧
    0 < (ticks IntSem.int32 298
      (ServerInteract_S2C_VarRep_Implementation (spawn true) "go").1).1.varModCount ∧
    (Tick IntSem.int32 (ticks IntSem.int32 298
      (ServerInteract_S2C_VarRep_Implementation (spawn true) "go").1).1).1.varModCount = 0 ∧
    (ticks IntSem.int32 299 (ServerInteract_S2C_VarRep_Implementation (spawn true) "go").1).2
      = [Effect.call (Rpc.pingpongTestClient 0)] :=
  ⟨rfl,
    ((auto_disable_after_299_ticks IntSem.int32 (spawn true) "go" rfl).1 298 (le_refl 298)).1,
    (auto_disable_after_299_ticks IntSem.int32 (spawn true) "go" rfl).2.1,
    (auto_disable_after_299_ticks IntSem.int32 (spawn true) "go" rfl).2.2.2⟩

/-- C4 as stated fails: with the mirrored `Var1` equal to 300 `OnRepVar1` reports no
elapsed time, and with `Var1` equal to 299 it does. -/
theorem sentinel_300_fails :
    (OnRepVar1 IntSem.int32 ⟨0⟩ ⟨0⟩ { spawn false with Var1 := 300 }).2.filter
        Effect.isReplicationReport = [] ∧
      (OnRepVar1 IntSem.int32 ⟨0⟩ ⟨0⟩ { spawn false with Var1 := 299 }).2.filter
        Effect.isReplicationReport = [Effect.log (LogLine.ReplicationTotalTime 0)] := by
  decide

/-- C4 (amended): `OnRepVar1` leaves the state unchanged and issues no remote call.  When
the mirrored `Var1` equals 299 its effects are exactly: the line with the mirrored value,
the line "Variable Replication is done!" and the report of `end_time - start_time`.  For
every other value its only effect is the line with the mirrored value, so no elapsed
time is reported. -/
theorem sentinel_is_299 (m : IntSem) (u1 u2 : FDateTime) (s : AMyProjectCharacter) :
    (OnRepVar1 m u1 u2 s).1 = s ∧
      (OnRepVar1 m u1 u2 s).2 =
        (if s.Var1 = 299 then
          [Effect.log (LogLine.OnRepVar1 s.Var1), Effect.log LogLine.ReplicationDone,
           Effect.log (LogLine.ReplicationTotalTime (m.norm (clockReading u1 u2 - s.start_time)))]
        else [Effect.log (LogLine.OnRepVar1 s.Var1)]) ∧
      (OnRepVar1 m u1 u2 s).2.filter Effect.isReplicationReport =
        (if s.Var1 = 299 then
          [Effect.log (LogLine.ReplicationTotalTime (m.norm (clockReading u1 u2 - s.start_time)))]
        else []) ∧
      (OnRepVar1 m u1 u2 s).2.filter Effect.isCall = [] ∧
      (OnRepVar1 m u1 u2 s).2.head? = some (Effect.log (LogLine.OnRepVar1 s.Var1)) := by
  unfold OnRepVar1
  split <;> simp [Effect.isReplicationReport, Effect.isCall]

/-- C5 fails on the code: `Execute` reads the clock in the last millisecond of a minute,
`OnRepVar1` reads it one millisecond later, and the reported elapsed time is -59999. -/
theorem elapsed_negative_across_minute :
    lastMillisecondOfMinute.Ticks ≤ firstMillisecondOfNextMinute.Ticks ∧
      (Execute lastMillisecondOfMinute lastMillisecondOfMinute clientInTest).1.start_time = 59999 ∧
      (OnRepVar1 IntSem.int32 firstMillisecondOfNextMinute firstMillisecondOfNextMinute
        { (Execute lastMillisecondOfMinute lastMillisecondOfMinute clientInTest).1 with
          Var1 := 299 }).2
        = [Effect.log (LogLine.OnRepVar1 299), Effect.log LogLine.ReplicationDone,
           Effect.log (LogLine.ReplicationTotalTime (-59999))] := by
  decide

/-- C6: `pingpongTestServer_Implementation` on a non-authoritative copy and
`pingpongTestClient_Implementation` on an authoritative copy change no field of the
state, whatever the ball (0 included), and perform no effect at all. -/
theorem role_guard (m : IntSem) (u1 u2 : FDateTime) (cl sv : AMyProjectCharacter) (ball : Int)
    (hc : cl.authority = false) (hs : sv.authority = true) :
    pingpongTestServer_Implementation m cl ball = (cl, []) ∧
      pingpongTestClient_Implementation m u1 u2 sv ball = (sv, []) := by
  simp [pingpongTestServer_Implementation, pingpongTestClient_Implementation, HasAuthority, hc, hs]

/-- Witness of C6 with `ball = 0`, the value that would otherwise set `rpc_start_time`. -/
theorem role_guard_witness :
    (spawn false).authority = false ∧ (spawn true).authority = true ∧
      pingpongTestServer_Implementation IntSem.int32 (spawn false) 0 = (spawn false, []) ∧
      pingpongTestClient_Implementation IntSem.int32 lastMillisecondOfMinute
        lastMillisecondOfMinute (spawn true) 0 = (spawn true, []) :=
  ⟨rfl, rfl, role_guard IntSem.int32 lastMillisecondOfMinute lastMillisecondOfMinute
    (spawn false) (spawn true) 0 rfl rfl⟩

/-- What `Tick` does to the counters of an authoritative copy. -/
theorem Tick_counters (m : IntSem) (s : AMyProjectCharacter) (ha : s.authority = true) :
    (Tick m s).1.Var1 = (if 0 < s.varModCount then m.norm (s.Var1 + 1) else s.Var1) ∧
      (Tick m s).1.Var2 = (if 0 < s.varModCount then m.norm (s.Var2 + 1) else s.Var2) := by
  by_cases h0 : 0 < s.varModCount
  · by_cases h3 : 300 ≤ m.norm (s.varModCount + 1) <;>
      simp [Tick, HasAuthority, ha, h0, h3]
  · simp [Tick, HasAuthority, ha, h0]

/-- The handler `Tick` never reads or writes `gTestType`. -/
theorem Tick_ignores_mode (m : IntSem) (s : AMyProjectCharacter) (g : TestType) :
    Tick m { s with gTestType := g } = ({ (Tick m s).1 with gTestType := g }, (Tick m s).2) := by
  by_cases ha : s.authority = true
  · by_cases h0 : 0 < s.varModCount
    · by_cases h3 : 300 ≤ m.norm (s.varModCount + 1) <;>
        simp [Tick, HasAuthority, ha, h0, h3]
    · simp [Tick, HasAuthority, ha, h0]
  · simp [Tick, HasAuthority, ha]

/-- C7 as stated fails: with the test mode unset (`TT_NONE`), once the enable handler has
armed the driver of the spawn state, `Tick` increments both counters from 0 to 1. -/
theorem tick_gated_by_mode_fails :
    (ServerInteract_S2C_VarRep_Implementation (spawn true) "go").1.gTestType = TestType.TT_NONE ∧
      (ServerInteract_S2C_VarRep_Implementation (spawn true) "go").1.Var1 = 0 ∧
      (ServerInteract_S2C_VarRep_Implementation (spawn true) "go").1.Var2 = 0 ∧
      (Tick IntSem.int32 (ServerInteract_S2C_VarRep_Implementation (spawn true) "go").1).1.Var1 = 1 ∧
      (Tick IntSem.int32 (ServerInteract_S2C_VarRep_Implementation (spawn true) "go").1).1.Var2 = 1 := by
  decide

/-- C7 (amended): on the authoritative side `Tick` increments `Var1` and `Var2` exactly
when a tick budget remains (`varModCount > 0`) and otherwise leaves both unchanged; the
test mode `gTestType` plays no part: with any mode in its place `Tick` produces the same
state and the same effects. -/
theorem tick_gated_by_budget_only (m : IntSem) (s : AMyProjectCharacter)
    (ha : s.authority = true) :
    (0 < s.varModCount →
      (Tick m s).1.Var1 = m.norm (s.Var1 + 1) ∧ (Tick m s).1.Var2 = m.norm (s.Var2 + 1) ∧
      (Tick m s).1.Var1 ≠ s.Var1 ∧ (Tick m s).1.Var2 ≠ s.Var2) ∧
    (¬ 0 < s.varModCount → (Tick m s).1.Var1 = s.Var1 ∧ (Tick m s).1.Var2 = s.Var2) ∧
    (∀ g : TestType,
      Tick m { s with gTestType := g } = ({ (Tick m s).1 with gTestType := g }, (Tick m s).2)) := by
  obtain ⟨c1, c2⟩ := Tick_counters m s ha
  refine ⟨?_, ?_, Tick_ignores_mode m s⟩
  · intro h0
    rw [c1, c2, if_pos h0, if_pos h0]
    exact ⟨rfl, rfl, norm_succ_ne m _, norm_succ_ne m _⟩
  · intro h0
    rw [c1, c2]
    simp [h0]

/-- Witness of the amended C7 on the armed spawn state, whose mode is `TT_NONE`. -/
theorem tick_gated_by_budget_only_witness :
    (ServerInteract_S2C_VarRep_Implementation (spawn true) "go").1.authority = true ∧
    0 < (ServerInteract_S2C_VarRep_Implementation (spawn true) "go").1.varModCount ∧
    (Tick IntSem.int32 (ServerInteract_S2C_VarRep_Implementation (spawn true) "go").1).1.Var1
      = IntSem.int32.norm ((ServerInteract_S2C_VarRep_Implementation (spawn true) "go").1.Var1 + 1) ∧
    (Tick IntSem.int32 (ServerInteract_S2C_VarRep_Implementation (spawn true) "go").1).1.Var1
      ≠ (ServerInteract_S2C_VarRep_Implementation (spawn true) "go").1.Var1 :=
  ⟨rfl, by decide,
    ((tick_gated_by_budget_only IntSem.int32
      (ServerInteract_S2C_VarRep_Implementation (spawn true) "go").1 rfl).1 (by decide)).1,
    ((tick_gated_by_budget_only IntSem.int32
      (ServerInteract_S2C_VarRep_Implementation (spawn true) "go").1 rfl).1 (by decide)).2.2.1⟩

/-- C8: applying the enable handler twice in succession gives exactly the state that
applying it once gives, for every state and all payloads; on the authoritative side that
state has `varModCount = 1` (on the other side the handler changes nothing), and any
number of ticks run from it gives the same states and effects in both cases. -/
theorem enable_idempotent (s : AMyProjectCharacter) (p q : String) :
    (ServerInteract_S2C_VarRep_Implementation
        (ServerInteract_S2C_VarRep_Implementation s p).1 q).1
      = (ServerInteract_S2C_VarRep_Implementation s p).1 ∧
    (ServerInteract_S2C_VarRep_Implementation s p).1.varModCount
      = (if s.authority then 1 else s.varModCount) ∧
    (∀ (m : IntSem) (n : Nat),
      ticks m n (ServerInteract_S2C_VarRep_Implementation
          (ServerInteract_S2C_VarRep_Implementation s p).1 q).1
        = ticks m n (ServerInteract_S2C_VarRep_Implementation s p).1) := by
  have h : (ServerInteract_S2C_VarRep_Implementation
        (ServerInteract_S2C_VarRep_Implementation s p).1 q).1
      = (ServerInteract_S2C_VarRep_Implementation s p).1 := by
    by_cases ha : s.authority = true <;>
      simp [ServerInteract_S2C_VarRep_Implementation, HasAuthority, ha]
  refine ⟨h, ?_, ?_⟩
  · by_cases ha : s.authority = true <;>
      simp [ServerInteract_S2C_VarRep_Implementation, HasAuthority, ha]
  · intro m n
    rw [h]

/-- No operation lowers a counter, as long as incrementing it does not overflow. -/
theorem apply_counters_mono (m : IntSem) (op : Op) (s : AMyProjectCharacter)
    (h1 : m.norm (s.Var1 + 1) = s.Var1 + 1) (h2 : m.norm (s.Var2 + 1) = s.Var2 + 1) :
    s.Var1 ≤ (Op.apply m s op).1.Var1 ∧ s.Var2 ≤ (Op.apply m s op).1.Var2 := by
  cases op with
  | Tick =>
    by_cases ha : s.authority = true
    · obtain ⟨c1, c2⟩ := Tick_counters m s ha
      simp only [Op.apply]
      rw [c1, c2]
      split <;> constructor <;> omega
    · simp [Op.apply, Tick, HasAuthority, ha]
  | Execute u1 u2 =>
    simp only [Op.apply, Execute, Interact_S2C_VarRep]
    split
    · split <;> simp
    · simp
  | Interact_S2C_VarRep =>
    simp only [Op.apply, Interact_S2C_VarRep]
    split <;> simp
  | NotifyClientRoundTripDone_Implementation u1 u2 v1 v2 =>
    simp only [Op.apply, NotifyClientRoundTripDone_Implementation]
    split <;> simp
  | ServerInitializing_TT_REPLICATION_ROUNDTRIP_Env_Implementation data =>
    simp [Op.apply, ServerInitializing_TT_REPLICATION_ROUNDTRIP_Env_Implementation]
  | Initializing_TT_REPLICATION_ROUNDTRIP_Env =>
    simp only [Op.apply, Initializing_TT_REPLICATION_ROUNDTRIP_Env]
    split <;> simp
  | ServerInteract_S2C_VarRep_Implementation str =>
    simp only [Op.apply, ServerInteract_S2C_VarRep_Implementation]
    split <;> simp
  | OnRepVar1 u1 u2 =>
    simp only [Op.apply, OnRepVar1]
    split <;> simp
  | OnRepVar2 => simp [Op.apply, OnRepVar2]
  | pingpongTestServer_Implementation ball =>
    simp only [Op.apply, pingpongTestServer_Implementation]
    split <;> simp
  | pingpongTestClient_Implementation u1 u2 ball =>
    by_cases hA : s.authority = true <;> by_cases hb0 : ball = 0 <;>
      by_cases hb : ball = 500 <;>
      simp [Op.apply, pingpongTestClient_Implementation, HasAuthority, hA, hb0, hb]

/-- C10: no operation of the file lowers `Var1` or `Var2` (short of `int` overflow), so
a counter that has left zero never returns to it.  After one complete run from
`Var1 = Var2 = 0` (299 ticks, ending with the driver idle and `Var1 = 299`), re-arming the
driver and ticking any number of times `k >= 1` leaves `Var1 = 299 + min k 299`, which is
never the value 299 that `OnRepVar1` tests for: run on a copy mirroring that value,
`OnRepVar1` reports no elapsed time. -/
theorem counters_never_reset (m : IntSem) (s : AMyProjectCharacter) (p q : String)
    (ha : s.authority = true) (h1 : s.Var1 = 0) (h2 : s.Var2 = 0) :
    (∀ (op : Op) (t : AMyProjectCharacter),
      m.norm (t.Var1 + 1) = t.Var1 + 1 → m.norm (t.Var2 + 1) = t.Var2 + 1 →
      t.Var1 ≤ (Op.apply m t op).1.Var1 ∧ t.Var2 ≤ (Op.apply m t op).1.Var2) ∧
    (ticks m 299 (ServerInteract_S2C_VarRep_Implementation s p).1).1.varModCount = 0 ∧
    (ticks m 299 (ServerInteract_S2C_VarRep_Implementation s p).1).1.Var1 = 299 ∧
    (∀ k : Nat, 1 ≤ k →
      (ticks m k (ServerInteract_S2C_VarRep_Implementation
        (ticks m 299 (ServerInteract_S2C_VarRep_Implementation s p).1).1 q).1).1.Var1
        = 299 + (min k 299 : Nat) ∧
      (ticks m k (ServerInteract_S2C_VarRep_Implementation
        (ticks m 299 (ServerInteract_S2C_VarRep_Implementation s p).1).1 q).1).1.Var1 ≠ 299 ∧
      (∀ (u1 u2 : FDateTime) (cl : AMyProjectCharacter),
        cl.Var1 = (ticks m k (ServerInteract_S2C_VarRep_Implementation
          (ticks m 299 (ServerInteract_S2C_VarRep_Implementation s p).1).1 q).1).1.Var1 →
        (OnRepVar1 m u1 u2 cl).2.filter Effect.isReplicationReport = [])) := by
  rw [enable_authority s p ha]
  obtain ⟨c1, c2, c3, c4⟩ := ticks_armed_all m { s with varModCount := 1 } ha rfl 0 0 h1 h2
    (by norm_num) (by norm_num) (by norm_num) (by norm_num) 299
  have f1 : (ticks m 299 { s with varModCount := 1 }).1.Var1 = 299 := by rw [c1]; simp
  have f2 : (ticks m 299 { s with varModCount := 1 }).1.Var2 = 299 := by rw [c2]; simp
  refine ⟨fun op t => apply_counters_mono m op t, by simpa using c3, f1, ?_⟩
  generalize (ticks m 299 { s with varModCount := 1 }).1 = first at c4 f1 f2 ⊢
  intro k hk
  rw [enable_authority first q c4]
  obtain ⟨d1, _, _, _⟩ := ticks_armed_all m { first with varModCount := 1 } c4 rfl 299 299 f1 f2
    (by norm_num) (by norm_num) (by norm_num) (by norm_num) k
  have hne : (ticks m k { first with varModCount := 1 }).1.Var1 ≠ 299 := by
    rw [d1]
    have : 1 ≤ min k 299 := by omega
    omega
  refine ⟨d1, hne, ?_⟩
  intro u1 u2 cl hcl
  have hcl2 : ¬ cl.Var1 = 299 := by rw [hcl]; exact hne
  simp [OnRepVar1, hcl2, Effect.isReplicationReport]

/-- Witness of C10 at the spawn state. -/
theorem counters_never_reset_witness :
    (spawn true).authority = true ∧ (spawn true).Var1 = 0 ∧ (spawn true).Var2 = 0 ∧
    (ticks IntSem.int32 299
      (ServerInteract_S2C_VarRep_Implementation (spawn true) "go").1).1.Var1 = 299 ∧
    (ticks IntSem.int32 1 (ServerInteract_S2C_VarRep_Implementation
        (ticks IntSem.int32 299 (ServerInteract_S2C_VarRep_Implementation (spawn true) "go").1).1
        "again").1).1.Var1 ≠ 299 :=
  ⟨rfl, rfl, rfl, (counters_never_reset IntSem.int32 (spawn true) "go" "again" rfl rfl rfl).2.2.1,
    ((counters_never_reset IntSem.int32 (spawn true) "go" "again" rfl rfl rfl).2.2.2 1
      (by decide)).2.1⟩

/-! ## The ping-pong probe -/

theorem callsIssued_append (h : List Delivery) (d : Delivery) :
    callsIssued (h ++ [d]) = callsIssued h + (d.effects.filter Effect.isCall).length := by
  simp [callsIssued]

theorem completions_append (h : List Delivery) (d : Delivery) :
    completions (h ++ [d]) = completions h + (d.effects.filter Effect.isCompletion).length := by
  simp [completions]

theorem clientObserved_append_client (h : List Delivery) (ball : Int) (e : List Effect) :
    clientObserved (h ++ [⟨Side.client, Rpc.pingpongTestClient ball, e⟩])
      = clientObserved h ++ [ball] := by
  induction h with
  | nil => rfl
  | cons d h ih =>
    obtain ⟨sd, r, ef⟩ := d
    cases sd <;> cases r <;> simp [clientObserved, ih]

theorem clientObserved_append_server (h : List Delivery) (r : Rpc) (e : List Effect) :
    clientObserved (h ++ [⟨Side.server, r, e⟩]) = clientObserved h := by
  induction h with
  | nil => rfl
  | cons d h ih =>
    obtain ⟨sd, r', ef⟩ := d
    cases sd <;> cases r' <;> simp [clientObserved, ih]

theorem progression_succ (b : Int) (len : Nat) :
    progression b (len + 1) = progression b len ++ [b + 2 * (len : Int)] := by
  simp [progression, List.range_succ]

theorem client_hop (m : IntSem) (u1 u2 : FDateTime) (s : AMyProjectCharacter) (ball : Int)
    (hca : s.authority = false) (hb : ¬ ball = 500) :
    pingpongTestClient_Implementation m u1 u2 s ball =
      ((if ball = 0 then { s with rpc_start_time := clockReading u1 u2 } else s),
        [Effect.call (Rpc.pingpongTestServer (m.norm (ball + 1))),
         Effect.log (LogLine.pingpongClientBall (m.norm (ball + 1)))]) := by
  simp [pingpongTestClient_Implementation, HasAuthority, hca, hb]

theorem client_done (m : IntSem) (u1 u2 : FDateTime) (s : AMyProjectCharacter)
    (hca : s.authority = false) :
    pingpongTestClient_Implementation m u1 u2 s 500 =
      (s, [Effect.log (LogLine.pingpongClientReached 500),
           Effect.log (LogLine.pingpongClientTimeLapse
             (m.norm (clockReading u1 u2 - s.rpc_start_time)))]) := by
  simp [pingpongTestClient_Implementation, HasAuthority, hca]

theorem server_hop (m : IntSem) (s : AMyProjectCharacter) (ball : Int)
    (hsa : s.authority = true) :
    pingpongTestServer_Implementation m s ball =
      (s, [Effect.call (Rpc.pingpongTestClient (m.norm (ball + 1))),
           Effect.log (LogLine.pingpongServerBall (m.norm (ball + 1)))]) := by
  simp [pingpongTestServer_Implementation, HasAuthority, hsa]

theorem next_flying (m : IntSem) (clock : Nat → FDateTime × FDateTime) (b : Int) (n : Nat)
    (net : Net) (h : Flying b n net) (hnot : ¬ (n % 2 = 0 ∧ b + n = 500))
    (hov : m.norm (b + n + 1) = b + n + 1) :
    ∃ net', next m clock net = some net' ∧ Flying b (n + 1) net' := by
  obtain ⟨hsa, hca, htc, hts, hlen, hcalls, hcomp, hobs⟩ := h
  rcases Nat.mod_two_eq_zero_or_one n with hp | hp
  · have hb : ¬ (b + n = 500) := fun e => hnot ⟨hp, e⟩
    have hp1 : ¬ ((n + 1) % 2 = 0) := by omega
    have hhalf : (n + 1 + 1) / 2 = (n + 1) / 2 + 1 := by omega
    have hn2 : (2 : Int) * (((n + 1) / 2 : Nat) : Int) = n := by omega
    rw [if_pos hp] at htc hts
    simp only [next, deliver, htc, hts, dispatch]
    rw [client_hop m _ _ _ _ hca hb, hov]
    refine ⟨_, rfl, ?_⟩
    constructor
    · exact hsa
    · show (if b + (n : Int) = 0 then _ else net.client).authority = false
      split <;> simp [hca]
    · simp [issuedCalls, Rpc.target, hp1]
    · simp [issuedCalls, Rpc.target, hp1]
      ring
    · simp [hlen]
    · simp [callsIssued_append, hcalls, Effect.isCall]
    · simp [completions_append, hcomp, Effect.isCompletion]
    · rw [clientObserved_append_client, hobs, hhalf, progression_succ, hn2]
  · have hp0 : ¬ (n % 2 = 0) := by omega
    have hp1 : (n + 1) % 2 = 0 := by omega
    have hhalf : (n + 1 + 1) / 2 = (n + 1) / 2 := by omega
    rw [if_neg hp0] at htc hts
    simp only [next, deliver, htc, hts, dispatch]
    rw [server_hop m _ _ hsa, hov]
    refine ⟨_, rfl, ?_⟩
    constructor
    · exact hsa
    · exact hca
    · simp [issuedCalls, Rpc.target, hp1]
      ring
    · simp [issuedCalls, Rpc.target, hp1]
    · simp [hlen]
    · simp [callsIssued_append, hcalls, Effect.isCall]
    · simp [completions_append, hcomp, Effect.isCompletion]
    · rw [clientObserved_append_server, hobs, hhalf]


theorem next_landing (m : IntSem) (clock : Nat → FDateTime × FDateTime) (b : Int) (n : Nat)
    (net : Net) (h : Flying b n net) (hp : n % 2 = 0) (hb : b + n = 500) :
    ∃ net' lapse, next m clock net = some net' ∧ net'.toClient = [] ∧ net'.toServer = [] ∧
      net'.history = net.history ++ [⟨Side.client, Rpc.pingpongTestClient 500,
        [Effect.log (LogLine.pingpongClientReached 500),
         Effect.log (LogLine.pingpongClientTimeLapse lapse)]⟩] ∧
      callsIssued net'.history = n ∧ completions net'.history = 1 ∧
      clientObserved net'.history = progression b (n / 2 + 1) := by
  obtain ⟨hsa, hca, htc, hts, hlen, hcalls, hcomp, hobs⟩ := h
  have hhalf : (n + 1) / 2 = n / 2 := by omega
  have hn2 : b + (2 : Int) * ((n / 2 : Nat) : Int) = 500 := by omega
  rw [if_pos hp, hb] at htc
  rw [if_pos hp] at hts
  simp only [next, deliver, htc, hts, dispatch]
  rw [client_done m _ _ _ hca]
  refine ⟨_, _, rfl, ?_, ?_, rfl, ?_, ?_, ?_⟩
  · simp [issuedCalls]
  · simp [issuedCalls]
  · simp [callsIssued_append, hcalls, Effect.isCall]
  · simp [completions_append, hcomp, Effect.isCompletion]
  · rw [clientObserved_append_client, hobs, hhalf, progression_succ, hn2]

theorem next_quiescent (m : IntSem) (clock : Nat → FDateTime × FDateTime) (net : Net)
    (h1 : net.toClient = []) (h2 : net.toServer = []) : next m clock net = none := by
  simp [next, deliver, h1, h2]

theorem run_succ (m : IntSem) (clock : Nat → FDateTime × FDateTime) (k : Nat) (net : Net) :
    run m clock (k + 1) net = (next m clock (run m clock k net)).getD (run m clock k net) :=
  rfl

theorem run_quiescent (m : IntSem) (clock : Nat → FDateTime × FDateTime) (net : Net)
    (h1 : net.toClient = []) (h2 : net.toServer = []) (k : Nat) : run m clock k net = net := by
  induction k with
  | zero => rfl
  | succ k ih => rw [run_succ, ih, next_quiescent m clock net h1 h2]; rfl

theorem run_add (m : IntSem) (clock : Nat → FDateTime × FDateTime) (j k : Nat) (net : Net) :
    run m clock (j + k) net = run m clock k (run m clock j net) := by
  induction k with
  | zero => rfl
  | succ k ih => rw [← Nat.add_assoc, run_succ, ih, run_succ]

theorem probeStart_flying (sv cl : AMyProjectCharacter) (b : Int) (hs : sv.authority = true)
    (hc : cl.authority = false) : Flying b 0 (probeStart sv cl b) := by
  constructor <;> simp [probeStart, hs, hc, callsIssued, completions, clientObserved, progression]

/-- As long as no even hop count `j` has `b + j = 500` and no increment overflows, the
probe is still running after `n` deliveries. -/
theorem run_flying (m : IntSem) (clock : Nat → FDateTime × FDateTime)
    (sv cl : AMyProjectCharacter) (b : Int) (hs : sv.authority = true)
    (hc : cl.authority = false) (n : Nat)
    (hnot : ∀ j : Nat, j < n → ¬ (j % 2 = 0 ∧ b + j = 500))
    (hov : ∀ j : Nat, j < n → m.norm (b + j + 1) = b + j + 1) :
    Flying b n (run m clock n (probeStart sv cl b)) := by
  induction n with
  | zero => exact probeStart_flying sv cl b hs hc
  | succ n ih =>
    have hf := ih (fun j hj => hnot j (by omega)) (fun j hj => hov j (by omega))
    obtain ⟨net', h1, h2⟩ := next_flying m clock b n _ hf (hnot n (by omega)) (hov n (by omega))
    rw [run_succ, h1]
    exact h2

theorem Flying.inFlight_eq {b : Int} {n : Nat} {net : Net} (h : Flying b n net) :
    net.inFlight = [if n % 2 = 0 then Rpc.pingpongTestClient (b + n)
      else Rpc.pingpongTestServer (b + n)] := by
  rw [Net.inFlight, h.toClient, h.toServer]
  split <;> simp


theorem progression_length (b : Int) (len : Nat) : (progression b len).length = len := by
  unfold progression
  rw [List.length_map, List.length_range]

theorem observed_progression (b : Int) (len : Nat) (h : List Delivery)
    (e : clientObserved h = progression b len) :
    clientObserved h = progression b (clientObserved h).length := by
  rw [e, progression_length]

/-- A probe whose ball reaches 500 at the client after `N` hops: it is running up to
delivery `N`, the next delivery is the completion report, and from then on the net is
quiescent and never changes again. -/
theorem run_completing (m : IntSem) (clock : Nat → FDateTime × FDateTime)
    (sv cl : AMyProjectCharacter) (b : Int) (hs : sv.authority = true)
    (hc : cl.authority = false) (N : Nat) (hN : b + (N : Int) = 500) (hp : N % 2 = 0)
    (hov : ∀ j : Nat, j < N → m.norm (b + j + 1) = b + j + 1) :
    (∀ n : Nat, n ≤ N → Flying b n (run m clock n (probeStart sv cl b))) ∧
    ∃ lapse, ∀ n : Nat, N + 1 ≤ n →
      (run m clock n (probeStart sv cl b)).inFlight = [] ∧
      (run m clock n (probeStart sv cl b)).history =
        (run m clock N (probeStart sv cl b)).history ++
          [⟨Side.client, Rpc.pingpongTestClient 500,
            [Effect.log (LogLine.pingpongClientReached 500),
             Effect.log (LogLine.pingpongClientTimeLapse lapse)]⟩] ∧
      callsIssued (run m clock n (probeStart sv cl b)).history = N ∧
      completions (run m clock n (probeStart sv cl b)).history = 1 ∧
      clientObserved (run m clock n (probeStart sv cl b)).history = progression b (N / 2 + 1) ∧
      run m clock n (probeStart sv cl b) = run m clock (N + 1) (probeStart sv cl b) := by
  have hfly : ∀ n : Nat, n ≤ N → Flying b n (run m clock n (probeStart sv cl b)) := by
    intro n hn
    refine run_flying m clock sv cl b hs hc n (fun j hj => ?_) (fun j hj => hov j (by omega))
    rintro ⟨_, e⟩
    omega
  refine ⟨hfly, ?_⟩
  obtain ⟨net', lapse, h1, h2, h3, h4, h5, h6, h7⟩ :=
    next_landing m clock b N _ (hfly N (le_refl N)) hp hN
  have hN1 : run m clock (N + 1) (probeStart sv cl b) = net' := by
    rw [run_succ, h1]; rfl
  refine ⟨lapse, ?_⟩
  intro n hn
  obtain ⟨d, rfl⟩ : ∃ d, n = N + 1 + d := ⟨n - (N + 1), by omega⟩
  have hrun : run m clock (N + 1 + d) (probeStart sv cl b) = net' := by
    rw [run_add, hN1, run_quiescent m clock net' h2 h3]
  rw [hrun, hN1]
  exact ⟨by simp [Net.inFlight, h2, h3], h4, h5, h6, h7, rfl⟩

/-- C1: with every remote call delivered exactly once and in order, a probe started by
`pingpongTestClient(0)` on the non-authoritative side has, after `k <= 500` hops, exactly
one call in flight, carrying ball `k` (towards the client for even `k`, the server for
odd `k`), `k` calls issued and no completion reported; the delivery after hop 500 is the
client handler receiving 500, which reports completion and issues nothing; from then on
nothing is in flight, the net never changes, 500 calls have been issued in all and
completion has been reported exactly once. -/
theorem pingpong_completes_after_500_hops (m : IntSem) (clock : Nat → FDateTime × FDateTime)
    (sv cl : AMyProjectCharacter) (hs : sv.authority = true) (hc : cl.authority = false) :
    (∀ k : Nat, k ≤ 500 →
      (run m clock k (probeStart sv cl 0)).inFlight =
        [if k % 2 = 0 then Rpc.pingpongTestClient k else Rpc.pingpongTestServer k] ∧
      (run m clock k (probeStart sv cl 0)).history.length = k ∧
      callsIssued (run m clock k (probeStart sv cl 0)).history = k ∧
      completions (run m clock k (probeStart sv cl 0)).history = 0) ∧
    (∃ lapse, ∀ n : Nat, 501 ≤ n →
      (run m clock n (probeStart sv cl 0)).inFlight = [] ∧
      (run m clock n (probeStart sv cl 0)).history =
        (run m clock 500 (probeStart sv cl 0)).history ++
          [⟨Side.client, Rpc.pingpongTestClient 500,
            [Effect.log (LogLine.pingpongClientReached 500),
             Effect.log (LogLine.pingpongClientTimeLapse lapse)]⟩] ∧
      callsIssued (run m clock n (probeStart sv cl 0)).history = 500 ∧
      completions (run m clock n (probeStart sv cl 0)).history = 1) := by
  obtain ⟨hfly, lapse, hdone⟩ := run_completing m clock sv cl 0 hs hc 500 (by norm_num)
    (by norm_num) (fun j hj => norm_of_inRange m _ (by omega) (by omega))
  refine ⟨?_, lapse, ?_⟩
  · intro k hk
    have hf := hfly k hk
    refine ⟨?_, hf.length, hf.calls, hf.noCompletion⟩
    rw [hf.inFlight_eq]
    simp
  · intro n hn
    obtain ⟨g1, g2, g3, g4, _, _⟩ := hdone n hn
    exact ⟨g1, g2, g3, g4⟩

/-- Witness of C1 on the two spawn states: ball 500 is in flight towards the client
after 500 hops, and one delivery later the probe has completed once and is silent. -/
theorem pingpong_completes_after_500_hops_witness :
    (spawn true).authority = true ∧ (spawn false).authority = false ∧
    (run IntSem.int32 steadyClock 500 (probeStart (spawn true) (spawn false) 0)).inFlight =
      [if 500 % 2 = 0 then Rpc.pingpongTestClient (500 : Nat) else Rpc.pingpongTestServer (500 : Nat)] ∧
    (run IntSem.int32 steadyClock 501 (probeStart (spawn true) (spawn false) 0)).inFlight = [] ∧
    callsIssued (run IntSem.int32 steadyClock 501
      (probeStart (spawn true) (spawn false) 0)).history = 500 ∧
    completions (run IntSem.int32 steadyClock 501
      (probeStart (spawn true) (spawn false) 0)).history = 1 :=
  ⟨rfl, rfl,
    ((pingpong_completes_after_500_hops IntSem.int32 steadyClock (spawn true) (spawn false)
      rfl rfl).1 500 (le_refl 500)).1,
    Exists.elim (pingpong_completes_after_500_hops IntSem.int32 steadyClock (spawn true)
      (spawn false) rfl rfl).2 (fun _ h => (h 501 (le_refl 501)).1),
    Exists.elim (pingpong_completes_after_500_hops IntSem.int32 steadyClock (spawn true)
      (spawn false) rfl rfl).2 (fun _ h => (h 501 (le_refl 501)).2.2.1),
    Exists.elim (pingpong_completes_after_500_hops IntSem.int32 steadyClock (spawn true)
      (spawn false) rfl rfl).2 (fun _ h => (h 501 (le_refl 501)).2.2.2)⟩

/-- C9: with unbounded integers and exactly-once in-order delivery, a probe whose first
`pingpongTestClient_Implementation` call carries `b` has the client handler see exactly
`b, b + 2, b + 4, ...`; completion is ever reported if and only if `b` is even and
`b <= 500` (the client then sees the progression up to 500 and the net falls silent);
for odd `b` and for `b > 500` one call is in flight after every number of deliveries,
each delivery issues a new call, and completion is never reported. -/
theorem pingpong_start_value_sensitivity (clock : Nat → FDateTime × FDateTime)
    (sv cl : AMyProjectCharacter) (b : Int) (hs : sv.authority = true)
    (hc : cl.authority = false) :
    (∀ n : Nat, clientObserved (run IntSem.ideal clock n (probeStart sv cl b)).history =
      progression b (clientObserved (run IntSem.ideal clock n (probeStart sv cl b)).history).length) ∧
    ((∃ n : Nat, 0 < completions (run IntSem.ideal clock n (probeStart sv cl b)).history) ↔
      (b % 2 = 0 ∧ b ≤ 500)) ∧
    ((b % 2 = 0 ∧ b ≤ 500) → ∀ n : Nat, (500 - b).toNat + 1 ≤ n →
      (run IntSem.ideal clock n (probeStart sv cl b)).inFlight = [] ∧
      completions (run IntSem.ideal clock n (probeStart sv cl b)).history = 1 ∧
      clientObserved (run IntSem.ideal clock n (probeStart sv cl b)).history =
        progression b ((500 - b).toNat / 2 + 1)) ∧
    ((b % 2 = 1 ∨ 500 < b) → ∀ n : Nat,
      (run IntSem.ideal clock n (probeStart sv cl b)).inFlight =
        [if n % 2 = 0 then Rpc.pingpongTestClient (b + n) else Rpc.pingpongTestServer (b + n)] ∧
      callsIssued (run IntSem.ideal clock n (probeStart sv cl b)).history = n ∧
      completions (run IntSem.ideal clock n (probeStart sv cl b)).history = 0 ∧
      clientObserved (run IntSem.ideal clock n (probeStart sv cl b)).history =
        progression b ((n + 1) / 2)) := by
  have hforever : (b % 2 = 1 ∨ 500 < b) → ∀ n : Nat,
      Flying b n (run IntSem.ideal clock n (probeStart sv cl b)) := by
    intro hb n
    refine run_flying IntSem.ideal clock sv cl b hs hc n (fun j _ => ?_) (fun j _ => rfl)
    rintro ⟨hj, e⟩
    omega
  have hstops : (b % 2 = 0 ∧ b ≤ 500) →
      (∀ n : Nat, n ≤ (500 - b).toNat →
        Flying b n (run IntSem.ideal clock n (probeStart sv cl b))) ∧
      ∀ n : Nat, (500 - b).toNat + 1 ≤ n →
        (run IntSem.ideal clock n (probeStart sv cl b)).inFlight = [] ∧
        completions (run IntSem.ideal clock n (probeStart sv cl b)).history = 1 ∧
        clientObserved (run IntSem.ideal clock n (probeStart sv cl b)).history =
          progression b ((500 - b).toNat / 2 + 1) := by
    intro hb
    obtain ⟨hfly, lapse, hdone⟩ := run_completing IntSem.ideal clock sv cl b hs hc
      (500 - b).toNat (by omega) (by omega) (fun j _ => rfl)
    refine ⟨hfly, fun n hn => ?_⟩
    obtain ⟨g1, _, _, g4, g5, _⟩ := hdone n hn
    exact ⟨g1, g4, g5⟩
  refine ⟨?_, ?_, fun hb => (hstops hb).2, ?_⟩
  · intro n
    by_cases hb : b % 2 = 0 ∧ b ≤ 500
    · rcases Nat.lt_or_ge n ((500 - b).toNat + 1) with hn | hn
      · exact observed_progression b _ _ ((hstops hb).1 n (by omega)).observed
      · exact observed_progression b _ _ ((hstops hb).2 n hn).2.2
    · exact observed_progression b _ _ (hforever (by omega) n).observed
  · constructor
    · rintro ⟨n, hn⟩
      by_contra hb
      have := (hforever (by omega) n).noCompletion
      omega
    · intro hb
      refine ⟨(500 - b).toNat + 1, ?_⟩
      rw [((hstops hb).2 _ (le_refl _)).2.1]
      exact Nat.one_pos
  · intro hb n
    have hf := hforever hb n
    exact ⟨hf.inFlight_eq, hf.calls, hf.noCompletion, hf.observed⟩

/-- Witness of C9: started with 499 the probe is still running after 7 deliveries with
7 calls issued and no completion; started with 498 it has completed after 3. -/
theorem pingpong_start_value_sensitivity_witness :
    (spawn true).authority = true ∧ (spawn false).authority = false ∧
    (callsIssued (run IntSem.ideal steadyClock 7
        (probeStart (spawn true) (spawn false) 499)).history = 7 ∧
      completions (run IntSem.ideal steadyClock 7
        (probeStart (spawn true) (spawn false) 499)).history = 0) ∧
    (completions (run IntSem.ideal steadyClock 3
        (probeStart (spawn true) (spawn false) 498)).history = 1) :=
  ⟨rfl, rfl,
    ⟨((pingpong_start_value_sensitivity steadyClock (spawn true) (spawn false) 499 rfl rfl).2.2.2
        (Or.inl (by decide)) 7).2.1,
     ((pingpong_start_value_sensitivity steadyClock (spawn true) (spawn false) 499 rfl rfl).2.2.2
        (Or.inl (by decide)) 7).2.2.1⟩,
    ((pingpong_start_value_sensitivity steadyClock (spawn true) (spawn false) 498 rfl rfl).2.2.1
        ⟨by decide, by decide⟩ 3 (by decide)).2.1⟩

end MyProject
